import Mathlib

/-!
# Verification of the BusTub buffer pool manager and LRU replacer

Shallow embedding of `src/buffer/lru_replacer.cpp` and
`src/buffer/buffer_pool_manager.cpp` (BusTub, 2020 fall project code).

Conventions of the embedding:
* `page_id_t` is `Int` with `INVALID_PAGE_ID = -1`; `frame_id_t` is `Nat`.
* `std::list<frame_id_t> used_list` is a `List Nat` (front = oldest).
* `std::unordered_map<frame_id_t, iterator> map` stores the key set as a
  `List Nat`; the iterator value is determined by the key (it points at the
  unique occurrence of the key in `used_list`), so erasing through the
  iterator is `List.erase` on the key.
* `std::set<frame_id_t> pinned` is a `List Nat` used as a set
  (insert-if-absent).
* The page table `std::unordered_map<page_id_t, frame_id_t>` is an
  association list `List (Int × Nat)`; `emplace` inserts only when the key
  is absent, matching `std::unordered_map::emplace`.
* A page's data buffer is abstracted to a single `Nat` (`0` = zero-filled).
* Disk-manager and replacer interactions are recorded as an event trace so
  that claims about which external calls occur can be stated.
-/

namespace BusTub

/-- `INVALID_PAGE_ID` sentinel (BusTub defines it as `-1`). -/
def INVALID_PAGE_ID : Int := -1

/-! ## LRU replacer (`src/buffer/lru_replacer.cpp`) -/

/-- State of `LRUReplacer`: the eviction-eligible list (oldest in front),
the key set of the iterator map, and the pinned set. -/
structure LRUReplacer where
  capacity : Nat
  used_list : List Nat
  map : List Nat
  pinned : List Nat
  deriving Repr, DecidableEq

/-- `LRUReplacer::LRUReplacer(num_pages)`: all containers empty. -/
def LRUReplacer.init (num_pages : Nat) : LRUReplacer :=
  { capacity := num_pages, used_list := [], map := [], pinned := [] }

/-- Insert into a list used as a set, as `std::set::insert` /
`std::unordered_map::emplace` do: no-op when already present. -/
def insertSet (x : Nat) (l : List Nat) : List Nat :=
  if x ∈ l then l else l ++ [x]

/-- `LRUReplacer::Victim`: pop the front of `used_list`; if the popped id is
missing from `map` the source returns `false` with `used_list` already
popped; otherwise erase it from `map` and return it. -/
def LRUReplacer.Victim (r : LRUReplacer) : Option Nat × LRUReplacer :=
  match r.used_list with
  | [] => (none, r)
  | v :: rest =>
    if v ∈ r.map then
      (some v, { r with used_list := rest, map := r.map.erase v })
    else
      (none, { r with used_list := rest })

/-- `LRUReplacer::Pin`: only when the id is in `map`, remove it from
`used_list` and `map` and insert it into `pinned`; otherwise no-op. -/
def LRUReplacer.Pin (r : LRUReplacer) (f : Nat) : LRUReplacer :=
  if f ∈ r.map then
    { r with used_list := r.used_list.erase f,
             map := r.map.erase f,
             pinned := insertSet f r.pinned }
  else r

/-- `LRUReplacer::Unpin`: only when the id is in `pinned`, remove it from
`pinned` and append it to the back of `used_list` (and to `map`);
otherwise no-op. -/
def LRUReplacer.Unpin (r : LRUReplacer) (f : Nat) : LRUReplacer :=
  if f ∈ r.pinned then
    { r with pinned := r.pinned.erase f,
             used_list := r.used_list ++ [f],
             map := insertSet f r.map }
  else r

/-- `LRUReplacer::Size`: `map.size() + pinned.size()`. -/
def LRUReplacer.size (r : LRUReplacer) : Nat :=
  r.map.length + r.pinned.length

/-- External calls a replacer client can make. -/
inductive RepOp where
  | victim : RepOp
  | pin : Nat → RepOp
  | unpin : Nat → RepOp
  deriving Repr, DecidableEq

/-- Apply one replacer call (the result of `Victim` is discarded). -/
def LRUReplacer.step (r : LRUReplacer) : RepOp → LRUReplacer
  | RepOp.victim => (r.Victim).2
  | RepOp.pin f => r.Pin f
  | RepOp.unpin f => r.Unpin f

/-- Run a sequence of replacer calls. -/
def LRUReplacer.run (r : LRUReplacer) : List RepOp → LRUReplacer
  | [] => r
  | op :: ops => (r.step op).run ops

/-! ## Frames and the buffer pool state
(`src/buffer/buffer_pool_manager.cpp`) -/

/-- A `Page` object of the frame array: resident page id, pin count
(a C++ `int`, hence `Int`), dirty flag, and abstracted data buffer. -/
structure Frame where
  page_id : Int
  pin_count : Int
  is_dirty : Bool
  data : Nat
  deriving Repr, DecidableEq

/-- Modelled from the spec: default `Page` construction (the `Page` class
header is not under `src/`); a fresh frame is unbound (`INVALID_PAGE_ID`),
with pin count 0, clean, and zero-filled data (spec §3, free-list frames). -/
def Frame.initial : Frame :=
  { page_id := INVALID_PAGE_ID, pin_count := 0, is_dirty := false, data := 0 }

/-- Calls made to the disk manager and the replacer, recorded as a trace. -/
inductive Event where
  | writePage : Int → Nat → Event
  | readPage : Int → Event
  | allocatePage : Int → Event
  | deallocatePage : Int → Event
  | replacerPin : Nat → Event
  | replacerUnpin : Nat → Event
  deriving Repr, DecidableEq

/-- The whole buffer pool manager state, with the disk manager folded in
(`disk_next` backs `AllocatePage`, `disk_store` the page contents). -/
structure BPState where
  pool_size : Nat
  pages : List Frame
  replacer : LRUReplacer
  free_list : List Nat
  page_table : List (Int × Nat)
  disk_next : Int
  disk_store : List (Int × Nat)
  deriving Repr, DecidableEq

/-- `BufferPoolManager::BufferPoolManager`: `pool_size` default frames, a
fresh replacer, every frame id on the free list, empty page table. -/
def BPState.init (n : Nat) : BPState :=
  { pool_size := n
    pages := List.replicate n Frame.initial
    replacer := LRUReplacer.init n
    free_list := List.range n
    page_table := []
    disk_next := 0
    disk_store := [] }

/-- `pages_[f]` (out-of-range reads give the default frame; under the
reachable-state invariant all accesses are in range). -/
def BPState.frame (s : BPState) (f : Nat) : Frame :=
  s.pages.getD f Frame.initial

/-- Write back `pages_[f]`. -/
def BPState.setFrame (s : BPState) (f : Nat) (pg : Frame) : BPState :=
  { s with pages := s.pages.set f pg }

/-- `page_table_.find(pid)`. -/
def lookupPT : List (Int × Nat) → Int → Option Nat
  | [], _ => none
  | (p, f) :: rest, pid => if p = pid then some f else lookupPT rest pid

/-- `page_table_.erase(pid)` (erase by key; at most one entry matches since
keys are unique). -/
def erasePT : List (Int × Nat) → Int → List (Int × Nat)
  | [], _ => []
  | (p, f) :: rest, pid => if p = pid then rest else (p, f) :: erasePT rest pid

/-- `page_table_.emplace(pid, fid)`: insert only when the key is absent. -/
def emplacePT (pt : List (Int × Nat)) (pid : Int) (fid : Nat) :
    List (Int × Nat) :=
  match lookupPT pt pid with
  | some _ => pt
  | none => pt ++ [(pid, fid)]

/-- `DiskManager::ReadPage` contents (unwritten pages read as zeros). -/
def storeRead : List (Int × Nat) → Int → Nat
  | [], _ => 0
  | (p, d) :: rest, pid => if p = pid then d else storeRead rest pid

/-- `DiskManager::WritePage` effect on the store. -/
def storeWrite (st : List (Int × Nat)) (pid : Int) (d : Nat) :
    List (Int × Nat) :=
  (pid, d) :: st

/-! ## Buffer pool manager operations -/

/-- Tail of `BufferPoolManager::FetchPageImpl` after a replacement frame
`fid` has been chosen (free list already popped / victim already taken):
write back if dirty, erase the frame's old page-table entry, insert the new
one, rebind, read from disk, `replacer_->Pin`, `++pin_count_`. -/
def bindFetch (s : BPState) (fid : Nat) (pid : Int) :
    Option Nat × BPState × List Event :=
  let rp := s.frame fid
  let wb : BPState × List Event :=
    if rp.is_dirty then
      ({ s.setFrame fid { rp with is_dirty := false } with
           disk_store := storeWrite s.disk_store rp.page_id rp.data },
       [Event.writePage rp.page_id rp.data])
    else (s, [])
  let s1 := wb.1
  let s2 := { s1 with page_table := erasePT s1.page_table rp.page_id }
  let s3 := { s2 with page_table := emplacePT s2.page_table pid fid }
  let pg := s3.frame fid
  let s4 := s3.setFrame fid
    { pg with page_id := pid, data := storeRead s3.disk_store pid }
  let s5 := { s4 with replacer := s4.replacer.Pin fid }
  let pg5 := s5.frame fid
  let s6 := s5.setFrame fid { pg5 with pin_count := pg5.pin_count + 1 }
  (some fid, s6, wb.2 ++ [Event.readPage pid, Event.replacerPin fid])

/-- `BufferPoolManager::FetchPageImpl`: on a hit increment the pin count and
`replacer_->Pin`; on a miss take a frame from the free list first, else ask
`replacer_->Victim`, and return null when neither yields a frame. -/
def fetchPage (s : BPState) (pid : Int) : Option Nat × BPState × List Event :=
  match lookupPT s.page_table pid with
  | some fid =>
    let pg := s.frame fid
    let s1 := s.setFrame fid { pg with pin_count := pg.pin_count + 1 }
    let s2 := { s1 with replacer := s1.replacer.Pin fid }
    (some fid, s2, [Event.replacerPin fid])
  | none =>
    match s.free_list with
    | fid :: rest => bindFetch { s with free_list := rest } fid pid
    | [] =>
      match s.replacer.Victim with
      | (some fid, r) => bindFetch { s with replacer := r } fid pid
      | (none, r) => (none, { s with replacer := r }, [])

/-- `BufferPoolManager::UnpinPageImpl`: absent page returns true; the dirty
flag is ORed in before the pin-count check; a pin count already ≤ 0 returns
false; otherwise decrement, and `replacer_->Unpin` when it reaches 0. -/
def unpinPage (s : BPState) (pid : Int) (dirty : Bool) :
    Bool × BPState × List Event :=
  match lookupPT s.page_table pid with
  | none => (true, s, [])
  | some fid =>
    let pg := s.frame fid
    let pg1 := if dirty then { pg with is_dirty := true } else pg
    let s1 := s.setFrame fid pg1
    if pg1.pin_count ≤ 0 then (false, s1, [])
    else
      let pg2 := { pg1 with pin_count := pg1.pin_count - 1 }
      let s2 := s1.setFrame fid pg2
      if pg2.pin_count = 0 then
        (true, { s2 with replacer := s2.replacer.Unpin fid },
         [Event.replacerUnpin fid])
      else (true, s2, [])

/-- `BufferPoolManager::FlushPageImpl`: absent page returns false; otherwise
`WritePage` the frame's data under the requested id and clear dirty. -/
def flushPage (s : BPState) (pid : Int) : Bool × BPState × List Event :=
  match lookupPT s.page_table pid with
  | none => (false, s, [])
  | some fid =>
    let pg := s.frame fid
    let s1 := { s with disk_store := storeWrite s.disk_store pid pg.data }
    let s2 := s1.setFrame fid { pg with is_dirty := false }
    (true, s2, [Event.writePage pid pg.data])

/-- Tail of `BufferPoolManager::NewPageImpl` after a replacement frame `fid`
has been chosen: write back if dirty, erase the old page-table entry,
`AllocatePage`, rebind with `pin_count_++` and zeroed memory,
`replacer_->Pin`, insert the new page-table entry. -/
def bindNew (s : BPState) (fid : Nat) :
    Option (Nat × Int) × BPState × List Event :=
  let rp := s.frame fid
  let wb : BPState × List Event :=
    if rp.is_dirty then
      ({ s.setFrame fid { rp with is_dirty := false } with
           disk_store := storeWrite s.disk_store rp.page_id rp.data },
       [Event.writePage rp.page_id rp.data])
    else (s, [])
  let s1 := wb.1
  let s2 := { s1 with page_table := erasePT s1.page_table rp.page_id }
  let npid := s2.disk_next
  let s3 := { s2 with disk_next := s2.disk_next + 1 }
  let pg := s3.frame fid
  let s4 := s3.setFrame fid
    { pg with page_id := npid, pin_count := pg.pin_count + 1, data := 0 }
  let s5 := { s4 with replacer := s4.replacer.Pin fid }
  let s6 := { s5 with page_table := emplacePT s5.page_table npid fid }
  (some (fid, npid), s6,
   wb.2 ++ [Event.allocatePage npid, Event.replacerPin fid])

/-- `BufferPoolManager::NewPageImpl`: the source sets `all_pinned = true`,
clears it when some frame has pin count ≤ 0, and returns null on
`if(!all_pinned)` — i.e. it returns null exactly when an unpinned frame
exists; otherwise it picks a frame (free list first, else victim). -/
def newPage (s : BPState) : Option (Nat × Int) × BPState × List Event :=
  let all_pinned := s.pages.all (fun pg => decide (0 < pg.pin_count))
  if ¬ all_pinned then (none, s, [])
  else
    match s.free_list with
    | fid :: rest => bindNew { s with free_list := rest } fid
    | [] =>
      match s.replacer.Victim with
      | (some fid, r) => bindNew { s with replacer := r } fid
      | (none, r) => (none, { s with replacer := r }, [])

/-- `BufferPoolManager::DeletePageImpl`: absent page returns true; a nonzero
pin count returns false before any effect; otherwise write back if dirty,
erase the page-table entry, `DeallocatePage`, reset the frame's metadata and
data, and push the frame onto the free list. -/
def deletePage (s : BPState) (pid : Int) : Bool × BPState × List Event :=
  match lookupPT s.page_table pid with
  | none => (true, s, [])
  | some fid =>
    let pg := s.frame fid
    if pg.pin_count ≠ 0 then (false, s, [])
    else
      let wb : BPState × List Event :=
        if pg.is_dirty then
          ({ s.setFrame fid { pg with is_dirty := false } with
               disk_store := storeWrite s.disk_store pg.page_id pg.data },
           [Event.writePage pg.page_id pg.data])
        else (s, [])
      let s1 := wb.1
      let s2 := { s1 with page_table := erasePT s1.page_table pid }
      let s3 := s2.setFrame fid Frame.initial
      let s4 := { s3 with free_list := s3.free_list ++ [fid] }
      (true, s4, wb.2 ++ [Event.deallocatePage pid])

/-- The loop body of `BufferPoolManager::FlushAllPagesImpl` over the frame
array, threading the disk store and the event trace. -/
def flushFrames : List Frame → List (Int × Nat) →
    List Frame × List (Int × Nat) × List Event
  | [], st => ([], st, [])
  | pg :: rest, st =>
    if pg.page_id ≠ INVALID_PAGE_ID ∧ pg.is_dirty then
      let out := flushFrames rest (storeWrite st pg.page_id pg.data)
      ({ pg with is_dirty := false } :: out.1, out.2.1,
       Event.writePage pg.page_id pg.data :: out.2.2)
    else
      let out := flushFrames rest st
      (pg :: out.1, out.2.1, out.2.2)

/-- `BufferPoolManager::FlushAllPagesImpl`: write back every dirty frame
with a valid page id and clear its dirty flag. -/
def flushAllPages (s : BPState) : BPState × List Event :=
  let out := flushFrames s.pages s.disk_store
  ({ s with pages := out.1, disk_store := out.2.1 }, out.2.2)

/-! ## Client call sequences -/

/-- One public buffer pool manager call. -/
inductive BPOp where
  | fetch : Int → BPOp
  | unpin : Int → Bool → BPOp
  | flush : Int → BPOp
  | newpage : BPOp
  | delete : Int → BPOp
  | flushAll : BPOp
  deriving Repr, DecidableEq

/-- Apply one public call, discarding its result and trace. -/
def BPState.step (s : BPState) : BPOp → BPState
  | BPOp.fetch pid => (fetchPage s pid).2.1
  | BPOp.unpin pid d => (unpinPage s pid d).2.1
  | BPOp.flush pid => (flushPage s pid).2.1
  | BPOp.newpage => (newPage s).2.1
  | BPOp.delete pid => (deletePage s pid).2.1
  | BPOp.flushAll => (flushAllPages s).1

/-- Run a sequence of public calls. -/
def BPState.run (s : BPState) : List BPOp → BPState
  | [] => s
  | op :: ops => (s.step op).run ops

/-! ## Example states used to instantiate theorems with hypotheses -/

/-- Pool of size 1 after `Fetch(5)`: page 5 resident in frame 0, pin count 1. -/
def exampleFetched : BPState := (fetchPage (BPState.init 1) 5).2.1

/-- Pool of size 1 after `Fetch(5); Unpin(5, false)`: page 5 resident in
frame 0, pin count 0, clean. -/
def exampleUnpinned : BPState := (unpinPage exampleFetched 5 false).2.1

/-! ## Basic list lemmas for the embedding -/

theorem getD_set_self : ∀ (l : List Frame) (i : Nat) (a d : Frame),
    i < l.length → (l.set i a).getD i d = a
  | _ :: _, 0, _, _, _ => rfl
  | _ :: xs, i + 1, a, d, h =>
      getD_set_self xs i a d (Nat.lt_of_succ_lt_succ h)

theorem getD_set_ne : ∀ (l : List Frame) (i j : Nat) (a d : Frame),
    i ≠ j → (l.set i a).getD j d = l.getD j d
  | [], _, _, _, _, _ => rfl
  | _ :: _, 0, 0, _, _, h => absurd rfl h
  | _ :: _, 0, _ + 1, _, _, _ => rfl
  | _ :: _, _ + 1, 0, _, _, _ => rfl
  | _ :: xs, i + 1, j + 1, a, d, h =>
      getD_set_ne xs i j a d (fun e => h (by rw [e]))

theorem getD_len_le : ∀ (l : List Frame) (i : Nat) (d : Frame),
    l.length ≤ i → l.getD i d = d
  | [], _, _, _ => rfl
  | _ :: xs, i + 1, d, h => getD_len_le xs i d (Nat.le_of_succ_le_succ h)

theorem getD_replicate : ∀ (n i : Nat) (d : Frame),
    (List.replicate n d).getD i d = d
  | 0, _, _ => rfl
  | _ + 1, 0, _ => rfl
  | n + 1, i + 1, d => getD_replicate n i d

/-- A successful page-table lookup names an entry of the table. -/
theorem lookupPT_mem : ∀ (pt : List (Int × Nat)) (pid : Int) (fid : Nat),
    lookupPT pt pid = some fid → (pid, fid) ∈ pt := by
  intro pt
  induction pt with
  | nil => intro pid fid h; simp [lookupPT] at h
  | cons hd tl ih =>
    intro pid fid h
    by_cases hp : hd.1 = pid
    · have : hd = (pid, fid) := by
        cases hd with
        | mk a b =>
          simp only [lookupPT, hp, if_pos] at h
          simp_all
      simp [this]
    · cases hd with
      | mk a b =>
        simp only [lookupPT, if_neg hp] at h
        exact List.mem_cons_of_mem _ (ih pid fid h)

theorem lookupPT_none_iff : ∀ (pt : List (Int × Nat)) (pid : Int),
    lookupPT pt pid = none ↔ ∀ pr ∈ pt, pr.1 ≠ pid := by
  intro pt
  induction pt with
  | nil => intro pid; simp [lookupPT]
  | cons hd tl ih =>
    intro pid
    cases hd with
    | mk a b =>
      by_cases hp : a = pid
      · subst hp; simp [lookupPT]
      · simp [lookupPT, hp, ih]

/-- Erasing an absent key is a no-op. -/
theorem erasePT_of_none : ∀ (pt : List (Int × Nat)) (pid : Int),
    lookupPT pt pid = none → erasePT pt pid = pt := by
  intro pt
  induction pt with
  | nil => intro pid _; rfl
  | cons hd tl ih =>
    intro pid h
    cases hd with
    | mk a b =>
      by_cases hp : a = pid
      · subst hp; simp [lookupPT] at h
      · simp only [lookupPT, if_neg hp] at h
        simp [erasePT, hp, ih pid h]

/-- A present key splits the table; erasing removes exactly that entry. -/
theorem erasePT_eq : ∀ (pt : List (Int × Nat)) (pid : Int) (fid : Nat),
    lookupPT pt pid = some fid →
    ∃ l1 l2, pt = l1 ++ (pid, fid) :: l2 ∧ erasePT pt pid = l1 ++ l2 ∧
      ∀ pr ∈ l1, pr.1 ≠ pid := by
  intro pt
  induction pt with
  | nil => intro pid fid h; simp [lookupPT] at h
  | cons hd tl ih =>
    intro pid fid h
    cases hd with
    | mk a b =>
      by_cases hp : a = pid
      · subst hp
        simp [lookupPT] at h
        subst h
        exact ⟨[], tl, by simp [erasePT]⟩
      · simp only [lookupPT, if_neg hp] at h
        obtain ⟨l1, l2, he, hr, hk⟩ := ih pid fid h
        refine ⟨(a, b) :: l1, l2, by simp [he], ?_, ?_⟩
        · simp [erasePT, hp, hr]
        · intro pr hpr
          rcases List.mem_cons.mp hpr with h1 | h1
          · subst h1; exact hp
          · exact hk pr h1

/-- `emplace` of an absent key appends the entry. -/
theorem emplacePT_of_none (pt : List (Int × Nat)) (pid : Int) (fid : Nat)
    (h : lookupPT pt pid = none) :
    emplacePT pt pid fid = pt ++ [(pid, fid)] := by
  simp [emplacePT, h]

/-- Lookup across an appended singleton entry. -/
theorem lookupPT_append_single (pt : List (Int × Nat)) (p q : Int) (f : Nat) :
    lookupPT (pt ++ [(p, f)]) q =
      match lookupPT pt q with
      | some x => some x
      | none => if p = q then some f else none := by
  induction pt with
  | nil => rfl
  | cons hd tl ih =>
    cases hd with
    | mk a b =>
      by_cases hp : a = q
      · simp [lookupPT, hp]
      · simp [lookupPT, hp, ih]

/-! ## The replacer never registers a frame -/

/-- A replacer with all three containers empty. -/
def LRUReplacer.unpopulated (r : LRUReplacer) : Prop :=
  r.used_list = [] ∧ r.map = [] ∧ r.pinned = []

theorem LRUReplacer.step_unpopulated (r : LRUReplacer) (op : RepOp)
    (h : r.unpopulated) : (r.step op) = r := by
  obtain ⟨h1, h2, h3⟩ := h
  cases op with
  | victim => simp [LRUReplacer.step, LRUReplacer.Victim, h1]
  | pin f => simp [LRUReplacer.step, LRUReplacer.Pin, h2]
  | unpin f => simp [LRUReplacer.step, LRUReplacer.Unpin, h3]

theorem LRUReplacer.run_unpopulated (r : LRUReplacer) (ops : List RepOp)
    (h : r.unpopulated) : r.run ops = r := by
  induction ops with
  | nil => rfl
  | cons op ops ih =>
    simp only [LRUReplacer.run]
    rw [LRUReplacer.step_unpopulated r op h]
    exact ih

/-- The manager-side replacer calls are no-ops on an unpopulated replacer. -/
theorem LRUReplacer.Pin_unpopulated (r : LRUReplacer) (f : Nat)
    (h : r.unpopulated) : r.Pin f = r := by
  simp [LRUReplacer.Pin, h.2.1]

theorem LRUReplacer.Unpin_unpopulated (r : LRUReplacer) (f : Nat)
    (h : r.unpopulated) : r.Unpin f = r := by
  simp [LRUReplacer.Unpin, h.2.2]

theorem LRUReplacer.Victim_unpopulated (r : LRUReplacer)
    (h : r.unpopulated) : r.Victim = (none, r) := by
  simp [LRUReplacer.Victim, h.1]

/-! ## Frame access lemmas -/

theorem frame_setFrame_self (s : BPState) (f : Nat) (pg : Frame)
    (h : f < s.pages.length) : (s.setFrame f pg).frame f = pg := by
  simp only [BPState.setFrame, BPState.frame]
  exact getD_set_self _ _ _ _ h

theorem frame_setFrame_ne (s : BPState) (f g : Nat) (pg : Frame)
    (h : f ≠ g) : (s.setFrame f pg).frame g = s.frame g := by
  simp only [BPState.setFrame, BPState.frame]
  exact getD_set_ne _ _ _ _ _ h

/-- A frame with a positive pin count is a real array slot. -/
theorem lt_length_of_pos_pin (s : BPState) (f : Nat)
    (h : 0 < (s.frame f).pin_count) : f < s.pages.length := by
  by_contra hle
  have : s.frame f = Frame.initial := getD_len_le _ _ _ (Nat.le_of_not_lt hle)
  rw [this] at h
  exact absurd h (by decide)

/-! ## Claim theorems -/

/-- C4: on a freshly constructed LRUReplacer, every sequence of
Victim/Pin/Unpin calls leaves the eligible list, the iterator map and the
pinned set empty — Pin on an unregistered id and Unpin on an unpinned id
are no-ops, and nothing ever registers an id — so Size always returns 0
and Victim always fails. -/
theorem lru_fresh_replacer_tracks_nothing (n : Nat) (ops : List RepOp) :
    ((LRUReplacer.init n).run ops).map = []
    ∧ ((LRUReplacer.init n).run ops).pinned = []
    ∧ ((LRUReplacer.init n).run ops).used_list = []
    ∧ ((LRUReplacer.init n).run ops).size = 0
    ∧ ((LRUReplacer.init n).run ops).Victim.1 = none := by
  have h : (LRUReplacer.init n).unpopulated := ⟨rfl, rfl, rfl⟩
  rw [LRUReplacer.run_unpopulated _ _ h]
  refine ⟨rfl, rfl, rfl, rfl, ?_⟩
  rw [LRUReplacer.Victim_unpopulated _ h]

/-- C1 (the code refutes the claim): on a freshly constructed pool of size
1 — a state where the frame has pin count 0 and the free list is non-empty
— NewPage returns null without calling AllocatePage and without changing
any state, because the source inverts its all-pinned check
(`if(!all_pinned) return nullptr`). -/
theorem newPage_null_on_fresh_pool :
    newPage (BPState.init 1) = (none, BPState.init 1, []) := by decide

/-- C2 (the code refutes the claim): pool_size = 2; after Fetch+Unpin of
pages 10 and 20 in order, Fetch(30) misses and returns null instead of
succeeding by evicting the frame that held page 10: no frame was ever
registered with the replacer, so Victim finds nothing. -/
theorem third_fetch_finds_no_victim :
    (fetchPage (BPState.run (BPState.init 2)
        [BPOp.fetch 10, BPOp.unpin 10 false,
         BPOp.fetch 20, BPOp.unpin 20 false]) 30).1 = none := by decide

/-- C3 (the code refutes the claim): pool_size = 1, Fetch(5) then
Unpin(5, false): page 5 stays resident with pin count 0, yet the
replacer's eligible sequence is empty — the manager's Replacer.Unpin call
was a no-op because the frame was never in the replacer's pinned set. -/
theorem unpinned_resident_frame_not_eligible :
    lookupPT exampleUnpinned.page_table 5 = some 0
    ∧ (exampleUnpinned.frame 0).pin_count = 0
    ∧ exampleUnpinned.replacer.used_list = [] := by decide

/-- C7: Delete on a resident page with nonzero pin count returns false and
is atomic: the state (page table, frames, free list, disk) is returned
unchanged and no disk-manager call is recorded. -/
theorem delete_pinned_page_fails_atomically (s : BPState) (pid : Int)
    (fid : Nat) (h1 : lookupPT s.page_table pid = some fid)
    (h2 : (s.frame fid).pin_count ≠ 0) :
    deletePage s pid = (false, s, []) := by
  simp [deletePage, h1, h2]

/-- Witness for C7 at a concrete input: pool of size 1 holding page 5 with
pin count 1. -/
theorem delete_pinned_page_fails_atomically_witness :
    deletePage exampleFetched 5 = (false, exampleFetched, []) :=
  delete_pinned_page_fails_atomically exampleFetched 5 0 (by decide)
    (by decide)

/-- C10: an over-unpin with is_dirty = true on a resident page whose pin
count is already ≤ 0 returns false but has already set the frame's dirty
flag — the error path mutates pool state. -/
theorem over_unpin_marks_frame_dirty (s : BPState) (pid : Int) (fid : Nat)
    (h1 : lookupPT s.page_table pid = some fid)
    (h2 : fid < s.pages.length)
    (h3 : (s.frame fid).pin_count ≤ 0) :
    (unpinPage s pid true).1 = false
    ∧ (unpinPage s pid true).2.1
        = s.setFrame fid { s.frame fid with is_dirty := true }
    ∧ ((unpinPage s pid true).2.1.frame fid).is_dirty = true := by
  have hstep : unpinPage s pid true
      = (false, s.setFrame fid { s.frame fid with is_dirty := true }, []) := by
    simp [unpinPage, h1, h3]
  refine ⟨by rw [hstep], by rw [hstep], ?_⟩
  rw [hstep]
  rw [frame_setFrame_self s fid _ h2]

/-- Reading a frame twice set at the same slot yields the second value. -/
theorem frame_after_double_set (s : BPState) (f : Nat) (a b : Frame)
    (h : f < s.pages.length) : ((s.setFrame f a).setFrame f b).frame f = b := by
  apply frame_setFrame_self
  simpa [BPState.setFrame] using h

/-- C6: Unpin of a non-resident page returns true and changes nothing; on a
resident page it returns false exactly when the pin count is already ≤ 0,
and with a positive pin count it returns true, decrements the pin count,
and calls Replacer.Unpin exactly when the count reaches 0. -/
theorem unpin_return_and_decrement_spec (s : BPState) (pid : Int) (d : Bool) :
    (lookupPT s.page_table pid = none → unpinPage s pid d = (true, s, []))
    ∧ (∀ fid, lookupPT s.page_table pid = some fid →
        (((unpinPage s pid d).1 = false ↔ (s.frame fid).pin_count ≤ 0)
         ∧ (0 < (s.frame fid).pin_count →
             (unpinPage s pid d).1 = true
             ∧ ((unpinPage s pid d).2.1.frame fid).pin_count
                 = (s.frame fid).pin_count - 1
             ∧ (Event.replacerUnpin fid ∈ (unpinPage s pid d).2.2
                 ↔ (s.frame fid).pin_count - 1 = 0)))) := by
  refine ⟨fun h => by simp [unpinPage, h], fun fid h => ?_⟩
  by_cases hp : (s.frame fid).pin_count ≤ 0
  · refine ⟨?_, fun hpos => absurd hp (by omega)⟩
    have hres : (unpinPage s pid d).1 = false := by
      cases d <;> simp [unpinPage, h, hp]
    simp [hres, hp]
  · have hpos : 0 < (s.frame fid).pin_count := by omega
    have hlt : fid < s.pages.length := lt_length_of_pos_pin s fid hpos
    by_cases hz : (s.frame fid).pin_count - 1 = 0
    · have hstep : unpinPage s pid d =
          (true,
           { (s.setFrame fid
               (if d then { s.frame fid with is_dirty := true }
                else s.frame fid)).setFrame fid
               { (if d then { s.frame fid with is_dirty := true }
                  else s.frame fid) with
                   pin_count := (s.frame fid).pin_count - 1 } with
             replacer :=
               (((s.setFrame fid
                   (if d then { s.frame fid with is_dirty := true }
                    else s.frame fid)).setFrame fid
                   { (if d then { s.frame fid with is_dirty := true }
                      else s.frame fid) with
                       pin_count :=
                         (s.frame fid).pin_count - 1 }).replacer.Unpin fid) },
           [Event.replacerUnpin fid]) := by
        cases d <;> simp [unpinPage, h, hp, hz]
      rw [hstep]
      refine ⟨by simp [hp], fun _ => ⟨rfl, ?_, by simp [hz]⟩⟩
      show ((_ : BPState).frame fid).pin_count = _
      rw [show ∀ (x : BPState) (r : LRUReplacer),
            ({ x with replacer := r } : BPState).frame fid = x.frame fid
          from fun x r => rfl]
      rw [frame_after_double_set s fid _ _ hlt]
    · have hstep : unpinPage s pid d =
          (true,
           (s.setFrame fid
             (if d then { s.frame fid with is_dirty := true }
              else s.frame fid)).setFrame fid
             { (if d then { s.frame fid with is_dirty := true }
                else s.frame fid) with
                 pin_count := (s.frame fid).pin_count - 1 },
           []) := by
        cases d <;> simp [unpinPage, h, hp, hz]
      rw [hstep]
      refine ⟨by simp [hp], fun _ => ⟨rfl, ?_, by simp [hz]⟩⟩
      rw [frame_after_double_set s fid _ _ hlt]

/-- Witness for C6: both branches at concrete inputs — Unpin(99) on a pool
not holding page 99, and Unpin(5) on a pool holding page 5 pinned once. -/
theorem unpin_return_and_decrement_spec_witness :
    (unpinPage exampleFetched 99 false = (true, exampleFetched, []))
    ∧ ((unpinPage exampleFetched 5 false).1 = true
       ∧ ((unpinPage exampleFetched 5 false).2.1.frame 0).pin_count
           = (exampleFetched.frame 0).pin_count - 1
       ∧ (Event.replacerUnpin 0 ∈ (unpinPage exampleFetched 5 false).2.2
           ↔ (exampleFetched.frame 0).pin_count - 1 = 0)) :=
  ⟨(unpin_return_and_decrement_spec exampleFetched 99 false).1 (by decide),
   ((unpin_return_and_decrement_spec exampleFetched 5 false).2 0
     (by decide)).2 (by decide)⟩

/-- C9: Fetch of a resident page followed by Unpin(·, false) succeeds in
both calls and restores the frame's pin count to its prior value. -/
theorem fetch_then_unpin_restores_pin_count (s : BPState) (pid : Int)
    (fid : Nat) (h1 : lookupPT s.page_table pid = some fid)
    (h2 : fid < s.pages.length) (h3 : 0 ≤ (s.frame fid).pin_count) :
    (fetchPage s pid).1 = some fid
    ∧ (unpinPage (fetchPage s pid).2.1 pid false).1 = true
    ∧ ((unpinPage (fetchPage s pid).2.1 pid false).2.1.frame fid).pin_count
        = (s.frame fid).pin_count := by
  have hstep : fetchPage s pid =
      (some fid,
       { s.setFrame fid
           { s.frame fid with pin_count := (s.frame fid).pin_count + 1 } with
         replacer :=
           (s.setFrame fid
             { s.frame fid with
                 pin_count := (s.frame fid).pin_count + 1 }).replacer.Pin
             fid },
       [Event.replacerPin fid]) := by
    simp [fetchPage, h1]
  have hres1 : (fetchPage s pid).1 = some fid := by rw [hstep]
  have hpt : (fetchPage s pid).2.1.page_table = s.page_table := by
    rw [hstep]
    rfl
  have hlen : (fetchPage s pid).2.1.pages.length = s.pages.length := by
    rw [hstep]
    simp [BPState.setFrame]
  have hfr : (fetchPage s pid).2.1.frame fid
      = { s.frame fid with pin_count := (s.frame fid).pin_count + 1 } := by
    rw [hstep]; exact frame_setFrame_self s fid _ h2
  have hlk : lookupPT (fetchPage s pid).2.1.page_table pid = some fid := by
    rw [hpt]; exact h1
  have hlt2 : fid < (fetchPage s pid).2.1.pages.length := by rw [hlen]; exact h2
  have hnp : ¬(((fetchPage s pid).2.1.frame fid).pin_count ≤ 0) := by
    rw [hfr]; simp only; omega
  refine ⟨hres1, ?_, ?_⟩
  · by_cases hz : ((fetchPage s pid).2.1.frame fid).pin_count - 1 = 0 <;>
      simp [unpinPage, hlk, hnp, hz]
  · by_cases hz : ((fetchPage s pid).2.1.frame fid).pin_count - 1 = 0
    · have hstep2 : (unpinPage (fetchPage s pid).2.1 pid false).2.1
          = { ((fetchPage s pid).2.1.setFrame fid
                ((fetchPage s pid).2.1.frame fid)).setFrame fid
                { (fetchPage s pid).2.1.frame fid with
                    pin_count :=
                      ((fetchPage s pid).2.1.frame fid).pin_count - 1 } with
              replacer :=
                (((fetchPage s pid).2.1.setFrame fid
                    ((fetchPage s pid).2.1.frame fid)).setFrame fid
                    { (fetchPage s pid).2.1.frame fid with
                        pin_count :=
                          ((fetchPage s pid).2.1.frame fid).pin_count -
                            1 }).replacer.Unpin fid } := by
        simp [unpinPage, hlk, hnp, hz]
      rw [hstep2]
      have : ((( (fetchPage s pid).2.1.setFrame fid
            ((fetchPage s pid).2.1.frame fid)).setFrame fid
            { (fetchPage s pid).2.1.frame fid with
                pin_count := ((fetchPage s pid).2.1.frame fid).pin_count - 1 })
          : BPState).frame fid
          = { (fetchPage s pid).2.1.frame fid with
              pin_count := ((fetchPage s pid).2.1.frame fid).pin_count - 1 } :=
        frame_after_double_set _ fid _ _ hlt2
      show ((_ : BPState).frame fid).pin_count = _
      rw [show ∀ (x : BPState) (r : LRUReplacer),
            ({ x with replacer := r } : BPState).frame fid = x.frame fid
          from fun x r => rfl]
      rw [this, hfr]
      simp only
      omega
    · have hstep2 : (unpinPage (fetchPage s pid).2.1 pid false).2.1
          = ((fetchPage s pid).2.1.setFrame fid
              ((fetchPage s pid).2.1.frame fid)).setFrame fid
              { (fetchPage s pid).2.1.frame fid with
                  pin_count :=
                    ((fetchPage s pid).2.1.frame fid).pin_count - 1 } := by
        simp [unpinPage, hlk, hnp, hz]
      rw [hstep2]
      rw [frame_after_double_set _ fid _ _ hlt2, hfr]
      simp only
      omega

/-- Witness for C9: pool of size 1 holding page 5 with pin count 1;
Fetch(5) takes the pin count to 2 and Unpin(5, false) back to 1. -/
theorem fetch_then_unpin_restores_pin_count_witness :
    (fetchPage exampleFetched 5).1 = some 0
    ∧ (unpinPage (fetchPage exampleFetched 5).2.1 5 false).1 = true
    ∧ ((unpinPage (fetchPage exampleFetched 5).2.1 5 false).2.1.frame
        0).pin_count = (exampleFetched.frame 0).pin_count :=
  fetch_then_unpin_restores_pin_count exampleFetched 5 0 (by decide)
    (by decide) (by decide)

/-! ## The reachable-state invariant -/

/-- The page ids recorded in the page table. -/
def keysPT (pt : List (Int × Nat)) : List Int := pt.map Prod.fst

/-- The frame ids recorded in the page table. -/
def valsPT (pt : List (Int × Nat)) : List Nat := pt.map Prod.snd

/-- Well-formedness of a buffer pool state; every state reachable from a
freshly constructed pool by public calls that never fetch
`INVALID_PAGE_ID` satisfies it. -/
structure GoodState (s : BPState) : Prop where
  pages_len : s.pages.length = s.pool_size
  rep_empty : s.replacer.unpopulated
  no_invalid : lookupPT s.page_table INVALID_PAGE_ID = none
  free_nodup : s.free_list.Nodup
  free_frames : ∀ f ∈ s.free_list, f < s.pages.length
      ∧ (s.frame f).page_id = INVALID_PAGE_ID
      ∧ (s.frame f).pin_count = 0
      ∧ (s.frame f).is_dirty = false
  pt_frames : ∀ pr ∈ s.page_table, pr.2 < s.pages.length
      ∧ pr.2 ∉ s.free_list
  keys_nodup : (keysPT s.page_table).Nodup
  vals_nodup : (valsPT s.page_table).Nodup
  size_inv : s.free_list.length + s.page_table.length = s.pool_size

theorem getD_mem : ∀ (l : List Frame) (i : Nat) (d : Frame),
    i < l.length → l.getD i d ∈ l
  | _ :: _, 0, _, _ => List.mem_cons_self _ _
  | _ :: xs, i + 1, d, h =>
      List.mem_cons_of_mem _ (getD_mem xs i d (Nat.lt_of_succ_lt_succ h))

/-- A freshly constructed pool is well formed. -/
theorem goodState_init (n : Nat) : GoodState (BPState.init n) := by
  refine ⟨by simp [BPState.init], ⟨rfl, rfl, rfl⟩, rfl, ?_, ?_, ?_,
    List.nodup_nil, List.nodup_nil, ?_⟩
  · exact List.nodup_range n
  · intro f hf
    have hlt : f < n := by simpa [BPState.init] using hf
    have hframe : (BPState.init n).frame f = Frame.initial :=
      getD_replicate n f Frame.initial
    exact ⟨by simpa [BPState.init] using hlt, by rw [hframe]; rfl,
      by rw [hframe]; rfl, by rw [hframe]; rfl⟩
  · intro pr hpr
    simp [BPState.init] at hpr
  · simp [BPState.init]

/-- Overwriting a frame that is not on the free list preserves the
invariant (the page table and the free list are untouched). -/
theorem GoodState.setFrame_not_free {s : BPState} (h : GoodState s)
    (fid : Nat) (pg : Frame) (hf : fid ∉ s.free_list) :
    GoodState (s.setFrame fid pg) := by
  refine ⟨?_, h.rep_empty, h.no_invalid, h.free_nodup, ?_, ?_, h.keys_nodup,
    h.vals_nodup, ?_⟩
  · simpa [BPState.setFrame] using h.pages_len
  · intro f hf2
    have hne : fid ≠ f := fun e => hf (e ▸ hf2)
    have hfr : (s.setFrame fid pg).frame f = s.frame f :=
      frame_setFrame_ne s fid f pg hne
    obtain ⟨hb, he1, he2, he3⟩ := h.free_frames f hf2
    exact ⟨by simpa [BPState.setFrame] using hb, by rw [hfr]; exact he1,
      by rw [hfr]; exact he2, by rw [hfr]; exact he3⟩
  · intro pr hpr
    obtain ⟨hb, hnfr⟩ := h.pt_frames pr hpr
    exact ⟨by simpa [BPState.setFrame] using hb, hnfr⟩
  · simpa [BPState.setFrame] using h.size_inv

/-- Replacing the disk store preserves the invariant. -/
theorem GoodState.withStore {s : BPState} (h : GoodState s)
    (st : List (Int × Nat)) : GoodState { s with disk_store := st } :=
  ⟨h.pages_len, h.rep_empty, h.no_invalid, h.free_nodup, h.free_frames,
   h.pt_frames, h.keys_nodup, h.vals_nodup, h.size_inv⟩

/-- Replacing the replacer by the result of an Unpin call preserves the
invariant: on an unpopulated replacer the call is a no-op. -/
theorem GoodState.withUnpinReplacer {s : BPState} (h : GoodState s)
    (f : Nat) : GoodState { s with replacer := s.replacer.Unpin f } := by
  rw [LRUReplacer.Unpin_unpopulated _ _ h.rep_empty]
  exact h

/-- Replacing the replacer by the result of a Pin call preserves the
invariant: on an unpopulated replacer the call is a no-op. -/
theorem GoodState.withPinReplacer {s : BPState} (h : GoodState s)
    (f : Nat) : GoodState { s with replacer := s.replacer.Pin f } := by
  rw [LRUReplacer.Pin_unpopulated _ _ h.rep_empty]
  exact h

theorem good_unpin_aux (s : BPState) (fid : Nat) (pg1 : Frame)
    (h : GoodState s) (hnf : fid ∉ s.free_list) :
    GoodState
      (if pg1.pin_count ≤ 0 then s.setFrame fid pg1
       else if pg1.pin_count - 1 = 0 then
         { (s.setFrame fid pg1).setFrame fid
             { pg1 with pin_count := pg1.pin_count - 1 } with
           replacer :=
             ((s.setFrame fid pg1).setFrame fid
               { pg1 with pin_count := pg1.pin_count - 1 }).replacer.Unpin
               fid }
       else (s.setFrame fid pg1).setFrame fid
         { pg1 with pin_count := pg1.pin_count - 1 }) := by
  split
  · exact h.setFrame_not_free _ _ hnf
  · split
    · exact ((h.setFrame_not_free _ _ hnf).setFrame_not_free _ _
        hnf).withUnpinReplacer fid
    · exact (h.setFrame_not_free _ _ hnf).setFrame_not_free _ _ hnf

/-- Unpin of any page preserves the invariant. -/
theorem good_unpin (s : BPState) (pid : Int) (d : Bool) (h : GoodState s) :
    GoodState (unpinPage s pid d).2.1 := by
  cases hlk : lookupPT s.page_table pid with
  | none => simpa [unpinPage, hlk] using h
  | some fid =>
    have hmem := lookupPT_mem _ _ _ hlk
    have hnf : fid ∉ s.free_list := (h.pt_frames _ hmem).2
    have haux := good_unpin_aux s fid
      (if d then { s.frame fid with is_dirty := true } else s.frame fid) h
      hnf
    simp only [unpinPage, hlk]
    simpa [apply_ite (fun t : Bool × BPState × List Event => t.2.1)]
      using haux

/-- Flush of any page preserves the invariant. -/
theorem good_flush (s : BPState) (pid : Int) (h : GoodState s) :
    GoodState (flushPage s pid).2.1 := by
  cases hlk : lookupPT s.page_table pid with
  | none => simpa [flushPage, hlk] using h
  | some fid =>
    have hmem := lookupPT_mem _ _ _ hlk
    have hnf : fid ∉ s.free_list := (h.pt_frames _ hmem).2
    simp only [flushPage, hlk]
    exact (h.withStore _).setFrame_not_free _ _ hnf

theorem erasePT_subset : ∀ (pt : List (Int × Nat)) (pid : Int),
    ∀ pr ∈ erasePT pt pid, pr ∈ pt := by
  intro pt
  induction pt with
  | nil => intro pid pr hpr; simp [erasePT] at hpr
  | cons hd tl ih =>
    intro pid pr hpr
    cases hd with
    | mk a b =>
      by_cases hp : a = pid
      · simp only [erasePT, if_pos hp] at hpr
        exact List.mem_cons_of_mem _ hpr
      · simp only [erasePT, if_neg hp] at hpr
        rcases List.mem_cons.mp hpr with h1 | h1
        · exact h1 ▸ List.mem_cons_self _ _
        · exact List.mem_cons_of_mem _ (ih pid pr h1)

theorem nodup_append_singleton {α : Type} (l : List α) (a : α)
    (h1 : l.Nodup) (h2 : a ∉ l) : (l ++ [a]).Nodup := by
  rw [List.nodup_append]
  exact ⟨h1, List.nodup_singleton a,
    fun x hx hxa => h2 ((List.mem_singleton.mp hxa) ▸ hx)⟩

theorem not_mem_keysPT (pt : List (Int × Nat)) (pid : Int)
    (h : lookupPT pt pid = none) : pid ∉ keysPT pt := by
  intro hm
  obtain ⟨pr, hpr, he⟩ := List.mem_map.mp hm
  exact (lookupPT_none_iff pt pid).mp h pr hpr he

theorem not_mem_valsPT_of_free {s : BPState} (h : GoodState s) (f : Nat)
    (hf : f ∈ s.free_list) : f ∉ valsPT s.page_table := by
  intro hm
  obtain ⟨pr, hpr, he⟩ := List.mem_map.mp hm
  exact (h.pt_frames pr hpr).2 (he ▸ hf)

/-- The per-frame effect of FlushAllPages. -/
def clearIfDirty (pg : Frame) : Frame :=
  if pg.page_id ≠ INVALID_PAGE_ID ∧ pg.is_dirty then
    { pg with is_dirty := false }
  else pg

theorem flushFrames_fst : ∀ (l : List Frame) (st : List (Int × Nat)),
    (flushFrames l st).1 = l.map clearIfDirty := by
  intro l
  induction l with
  | nil => intro st; rfl
  | cons pg rest ih =>
    intro st
    by_cases hc : pg.page_id ≠ INVALID_PAGE_ID ∧ pg.is_dirty
    · simp [flushFrames, hc, clearIfDirty, ih]
    · simp [flushFrames, hc, clearIfDirty, ih]

theorem getD_map_clearIfDirty : ∀ (l : List Frame) (i : Nat) (d : Frame),
    i < l.length →
    (l.map clearIfDirty).getD i d = clearIfDirty (l.getD i d)
  | _ :: _, 0, _, _ => rfl
  | _ :: xs, i + 1, d, h =>
      getD_map_clearIfDirty xs i d (Nat.lt_of_succ_lt_succ h)

/-- FlushAllPages preserves the invariant. -/
theorem good_flushAll (s : BPState) (h : GoodState s) :
    GoodState (flushAllPages s).1 := by
  have hfst : (flushFrames s.pages s.disk_store).1
      = s.pages.map clearIfDirty := flushFrames_fst s.pages s.disk_store
  simp only [flushAllPages]
  refine ⟨?_, h.rep_empty, h.no_invalid, h.free_nodup, ?_, ?_, h.keys_nodup,
    h.vals_nodup, h.size_inv⟩
  · show (flushFrames s.pages s.disk_store).1.length = s.pool_size
    rw [hfst, List.length_map]
    exact h.pages_len
  · intro f hf
    obtain ⟨hb, h1, h2, h3⟩ := h.free_frames f hf
    have hfr : (flushFrames s.pages s.disk_store).1.getD f Frame.initial
        = clearIfDirty (s.pages.getD f Frame.initial) := by
      rw [hfst]
      exact getD_map_clearIfDirty _ _ _ hb
    have hcl : clearIfDirty (s.pages.getD f Frame.initial)
        = s.pages.getD f Frame.initial := by
      unfold clearIfDirty
      rw [if_neg]
      intro hcon
      exact hcon.1 h1
    refine ⟨?_, ?_, ?_, ?_⟩
    · show f < (flushFrames s.pages s.disk_store).1.length
      rw [hfst, List.length_map]
      exact hb
    · show ((flushFrames s.pages s.disk_store).1.getD f
        Frame.initial).page_id = INVALID_PAGE_ID
      rw [hfr, hcl]
      exact h1
    · show ((flushFrames s.pages s.disk_store).1.getD f
        Frame.initial).pin_count = 0
      rw [hfr, hcl]
      exact h2
    · show ((flushFrames s.pages s.disk_store).1.getD f
        Frame.initial).is_dirty = false
      rw [hfr, hcl]
      exact h3
  · intro pr hpr
    obtain ⟨hb, hnfr⟩ := h.pt_frames pr hpr
    refine ⟨?_, hnfr⟩
    show pr.2 < (flushFrames s.pages s.disk_store).1.length
    rw [hfst, List.length_map]
    exact hb

/-- The bind tail of a fetch miss taken from the free list preserves the
invariant. -/
theorem good_bindFetch (s : BPState) (fid : Nat) (rest : List Nat)
    (pid : Int) (h : GoodState s) (hpid : pid ≠ INVALID_PAGE_ID)
    (hmiss : lookupPT s.page_table pid = none)
    (hfl : s.free_list = fid :: rest) :
    GoodState (bindFetch { s with free_list := rest } fid pid).2.1 := by
  have hmemf : fid ∈ s.free_list := by
    rw [hfl]
    exact List.mem_cons_self _ _
  obtain ⟨hb, hp1, hp2, hp3⟩ := h.free_frames fid hmemf
  have hfnodup : fid ∉ rest := by
    have := h.free_nodup
    rw [hfl] at this
    exact (List.nodup_cons.mp this).1
  have hrestnodup : rest.Nodup := by
    have := h.free_nodup
    rw [hfl] at this
    exact (List.nodup_cons.mp this).2
  have hp3u : (s.pages.getD fid Frame.initial).is_dirty = false := hp3
  have hp1u : (s.pages.getD fid Frame.initial).page_id = INVALID_PAGE_ID :=
    hp1
  simp only [bindFetch, BPState.frame, BPState.setFrame, hp3u, hp1u,
    Bool.false_eq_true, if_false, erasePT_of_none _ _ h.no_invalid,
    emplacePT_of_none _ _ fid hmiss]
  refine ⟨?_, ?_, ?_, hrestnodup, ?_, ?_, ?_, ?_, ?_⟩
  · show ((s.pages.set fid _).set fid _).length = s.pool_size
    rw [List.length_set, List.length_set]
    exact h.pages_len
  · show (s.replacer.Pin fid).unpopulated
    rw [LRUReplacer.Pin_unpopulated _ _ h.rep_empty]
    exact h.rep_empty
  · show lookupPT (s.page_table ++ [(pid, fid)]) INVALID_PAGE_ID = none
    rw [lookupPT_append_single, h.no_invalid]
    simp only []
    rw [if_neg hpid]
  · intro f hf
    have hf2 : f ∈ s.free_list := by
      rw [hfl]
      exact List.mem_cons_of_mem _ hf
    have hne : fid ≠ f := fun e => hfnodup (e ▸ hf)
    obtain ⟨hb2, he1, he2, he3⟩ := h.free_frames f hf2
    refine ⟨?_, ?_, ?_, ?_⟩
    · show f < ((s.pages.set fid _).set fid _).length
      rw [List.length_set, List.length_set]
      exact hb2
    · show (((s.pages.set fid _).set fid _).getD f Frame.initial).page_id
        = INVALID_PAGE_ID
      rw [getD_set_ne _ _ _ _ _ hne, getD_set_ne _ _ _ _ _ hne]
      exact he1
    · show (((s.pages.set fid _).set fid _).getD f Frame.initial).pin_count
        = 0
      rw [getD_set_ne _ _ _ _ _ hne, getD_set_ne _ _ _ _ _ hne]
      exact he2
    · show (((s.pages.set fid _).set fid _).getD f Frame.initial).is_dirty
        = false
      rw [getD_set_ne _ _ _ _ _ hne, getD_set_ne _ _ _ _ _ hne]
      exact he3
  · intro pr hpr
    rcases List.mem_append.mp hpr with hold | hnew
    · obtain ⟨hb2, hnfr⟩ := h.pt_frames pr hold
      refine ⟨?_, ?_⟩
      · show pr.2 < ((s.pages.set fid _).set fid _).length
        rw [List.length_set, List.length_set]
        exact hb2
      · intro hmem
        exact hnfr (by rw [hfl]; exact List.mem_cons_of_mem _ hmem)
    · have : pr = (pid, fid) := List.mem_singleton.mp hnew
      subst this
      refine ⟨?_, hfnodup⟩
      show fid < ((s.pages.set fid _).set fid _).length
      rw [List.length_set, List.length_set]
      exact hb
  · show (keysPT (s.page_table ++ [(pid, fid)])).Nodup
    have : keysPT (s.page_table ++ [(pid, fid)])
        = keysPT s.page_table ++ [pid] := by
      simp [keysPT]
    rw [this]
    exact nodup_append_singleton _ _ h.keys_nodup
      (not_mem_keysPT _ _ hmiss)
  · show (valsPT (s.page_table ++ [(pid, fid)])).Nodup
    have : valsPT (s.page_table ++ [(pid, fid)])
        = valsPT s.page_table ++ [fid] := by
      simp [valsPT]
    rw [this]
    exact nodup_append_singleton _ _ h.vals_nodup
      (not_mem_valsPT_of_free h fid hmemf)
  · have hsz := h.size_inv
    rw [hfl] at hsz
    rw [List.length_cons] at hsz
    show rest.length + (s.page_table ++ [(pid, fid)]).length = s.pool_size
    rw [List.length_append]
    simp only [List.length_cons, List.length_nil]
    omega

/-- Fetch of any page other than `INVALID_PAGE_ID` preserves the
invariant. -/
theorem good_fetch (s : BPState) (pid : Int) (h : GoodState s)
    (hpid : pid ≠ INVALID_PAGE_ID) : GoodState (fetchPage s pid).2.1 := by
  cases hlk : lookupPT s.page_table pid with
  | some fid =>
    have hnf : fid ∉ s.free_list :=
      (h.pt_frames _ (lookupPT_mem _ _ _ hlk)).2
    simp only [fetchPage, hlk]
    exact (h.setFrame_not_free _ _ hnf).withPinReplacer fid
  | none =>
    cases hfl : s.free_list with
    | cons fid rest =>
      simp only [fetchPage, hlk, hfl]
      exact good_bindFetch s fid rest pid h hpid hlk hfl
    | nil =>
      simp only [fetchPage, hlk, hfl]
      rw [LRUReplacer.Victim_unpopulated _ h.rep_empty, ← hfl]
      exact h

/-- On a well-formed state NewPage always returns null, changes nothing and
records no external call: when some frame is unpinned the inverted
all-pinned test rejects immediately, and when every frame is pinned the
free list is empty and the (forever unpopulated) replacer has no victim. -/
theorem newPage_good_eq (s : BPState) (h : GoodState s) :
    newPage s = (none, s, []) := by
  by_cases hall : s.pages.all (fun pg => decide (0 < pg.pin_count)) = true
  · have hfe : s.free_list = [] := by
      cases hfl : s.free_list with
      | nil => rfl
      | cons f rest =>
        exfalso
        have hmem : f ∈ s.free_list := by
          rw [hfl]
          exact List.mem_cons_self f rest
        obtain ⟨hlt, _, hpin, _⟩ := h.free_frames f hmem
        have hm2 : s.frame f ∈ s.pages := getD_mem s.pages f Frame.initial hlt
        have := List.all_eq_true.mp hall (s.frame f) hm2
        rw [hpin] at this
        exact absurd (of_decide_eq_true this) (by decide)
    have hrec : ({ s with free_list := ([] : List Nat) } : BPState) = s := by
      rw [← hfe]
    simp only [newPage]
    rw [if_neg (by
      intro hcon
      exact hcon hall)]
    rw [hfe, LRUReplacer.Victim_unpopulated _ h.rep_empty]
    show (none, ({ s with free_list := ([] : List Nat) } : BPState),
      ([] : List Event)) = (none, s, [])
    rw [hrec]
  · simp only [newPage]
    rw [if_pos hall]

/-- NewPage preserves the invariant (it is a no-op on good states). -/
theorem good_newPage (s : BPState) (h : GoodState s) :
    GoodState (newPage s).2.1 := by
  rw [newPage_good_eq s h]
  exact h

/-- The common final state of a successful Delete preserves the
invariant. -/
theorem good_delete_aux (s : BPState) (fid : Nat) (pid : Int)
    (dn : Int) (st' : List (Int × Nat)) (h : GoodState s)
    (hlk : lookupPT s.page_table pid = some fid) :
    GoodState
      { pool_size := s.pool_size
        pages := s.pages.set fid Frame.initial
        replacer := s.replacer
        free_list := s.free_list ++ [fid]
        page_table := erasePT s.page_table pid
        disk_next := dn
        disk_store := st' } := by
  have hmem := lookupPT_mem _ _ _ hlk
  obtain ⟨hb, hnf⟩ := h.pt_frames _ hmem
  obtain ⟨l1, l2, hsplit, herase, hl1k⟩ := erasePT_eq _ _ _ hlk
  have hvals : valsPT s.page_table = valsPT l1 ++ fid :: valsPT l2 := by
    rw [hsplit]
    simp [valsPT]
  have hkeys : keysPT s.page_table = keysPT l1 ++ pid :: keysPT l2 := by
    rw [hsplit]
    simp [keysPT]
  have hvnodup := h.vals_nodup
  rw [hvals] at hvnodup
  have hknodup := h.keys_nodup
  rw [hkeys] at hknodup
  have hfid_not : fid ∉ valsPT l1 ++ valsPT l2 :=
    (List.nodup_cons.mp (List.nodup_middle.mp hvnodup)).1
  refine ⟨?_, h.rep_empty, ?_, ?_, ?_, ?_, ?_, ?_, ?_⟩
  · show (s.pages.set fid Frame.initial).length = s.pool_size
    rw [List.length_set]
    exact h.pages_len
  · show lookupPT (erasePT s.page_table pid) INVALID_PAGE_ID = none
    rw [lookupPT_none_iff]
    intro pr hpr
    exact (lookupPT_none_iff _ _).mp h.no_invalid pr
      (erasePT_subset _ _ pr hpr)
  · exact nodup_append_singleton _ _ h.free_nodup hnf
  · intro f hf
    rcases List.mem_append.mp hf with hold | hnew
    · have hne : fid ≠ f := fun e => hnf (e ▸ hold)
      obtain ⟨hb2, he1, he2, he3⟩ := h.free_frames f hold
      refine ⟨?_, ?_, ?_, ?_⟩
      · show f < (s.pages.set fid Frame.initial).length
        rw [List.length_set]
        exact hb2
      · show ((s.pages.set fid Frame.initial).getD f
          Frame.initial).page_id = INVALID_PAGE_ID
        rw [getD_set_ne _ _ _ _ _ hne]
        exact he1
      · show ((s.pages.set fid Frame.initial).getD f
          Frame.initial).pin_count = 0
        rw [getD_set_ne _ _ _ _ _ hne]
        exact he2
      · show ((s.pages.set fid Frame.initial).getD f
          Frame.initial).is_dirty = false
        rw [getD_set_ne _ _ _ _ _ hne]
        exact he3
    · have hef : f = fid := List.mem_singleton.mp hnew
      subst hef
      refine ⟨?_, ?_, ?_, ?_⟩
      · show f < (s.pages.set f Frame.initial).length
        rw [List.length_set]
        exact hb
      · show ((s.pages.set f Frame.initial).getD f
          Frame.initial).page_id = INVALID_PAGE_ID
        rw [getD_set_self _ _ _ _ hb]
        rfl
      · show ((s.pages.set f Frame.initial).getD f
          Frame.initial).pin_count = 0
        rw [getD_set_self _ _ _ _ hb]
        rfl
      · show ((s.pages.set f Frame.initial).getD f
          Frame.initial).is_dirty = false
        rw [getD_set_self _ _ _ _ hb]
        rfl
  · intro pr hpr
    have hin : pr ∈ s.page_table := erasePT_subset _ _ pr hpr
    obtain ⟨hb2, hnfr⟩ := h.pt_frames pr hin
    have hprv : pr.2 ∈ valsPT l1 ++ valsPT l2 := by
      rw [herase] at hpr
      rcases List.mem_append.mp hpr with h1 | h1
      · exact List.mem_append.mpr (Or.inl
          (List.mem_map.mpr ⟨pr, h1, rfl⟩))
      · exact List.mem_append.mpr (Or.inr
          (List.mem_map.mpr ⟨pr, h1, rfl⟩))
    have hneq : pr.2 ≠ fid := fun e => hfid_not (e ▸ hprv)
    refine ⟨?_, ?_⟩
    · show pr.2 < (s.pages.set fid Frame.initial).length
      rw [List.length_set]
      exact hb2
    · intro hmem2
      rcases List.mem_append.mp hmem2 with h1 | h1
      · exact hnfr h1
      · exact hneq (List.mem_singleton.mp h1)
  · show (keysPT (erasePT s.page_table pid)).Nodup
    rw [herase]
    have : keysPT (l1 ++ l2) = keysPT l1 ++ keysPT l2 := by simp [keysPT]
    rw [this]
    exact (List.nodup_cons.mp (List.nodup_middle.mp hknodup)).2
  · show (valsPT (erasePT s.page_table pid)).Nodup
    rw [herase]
    have : valsPT (l1 ++ l2) = valsPT l1 ++ valsPT l2 := by simp [valsPT]
    rw [this]
    exact (List.nodup_cons.mp (List.nodup_middle.mp hvnodup)).2
  · show (s.free_list ++ [fid]).length + (erasePT s.page_table pid).length
      = s.pool_size
    have hsz := h.size_inv
    have hlen : s.page_table.length = l1.length + l2.length + 1 := by
      rw [hsplit]
      simp only [List.length_append, List.length_cons]
      omega
    have hlen2 : (erasePT s.page_table pid).length
        = l1.length + l2.length := by
      rw [herase]
      simp only [List.length_append]
    rw [List.length_append, hlen2]
    simp only [List.length_cons, List.length_nil]
    omega

/-- Delete of any page preserves the invariant. -/
theorem good_delete (s : BPState) (pid : Int) (h : GoodState s) :
    GoodState (deletePage s pid).2.1 := by
  cases hlk : lookupPT s.page_table pid with
  | none => simpa [deletePage, hlk] using h
  | some fid =>
    by_cases hpc : (s.frame fid).pin_count ≠ 0
    · simpa [deletePage, hlk, hpc] using h
    · have hpcu : ¬(s.pages.getD fid Frame.initial).pin_count ≠ 0 := hpc
      by_cases hd : (s.frame fid).is_dirty = true
      · have hdu : ((s.pages[fid]?).getD Frame.initial).is_dirty = true := by
          simpa [BPState.frame] using hd
        have haux := good_delete_aux s fid pid s.disk_next
          (storeWrite s.disk_store (s.frame fid).page_id (s.frame fid).data)
          h hlk
        simp only [deletePage, hlk, BPState.frame, BPState.setFrame]
        rw [if_neg hpcu]
        simpa [hdu, List.set_set, BPState.frame, BPState.setFrame]
          using haux
      · have hdu : ((s.pages[fid]?).getD Frame.initial).is_dirty = false := by
          simpa [BPState.frame] using Bool.eq_false_iff.mpr hd
        have haux := good_delete_aux s fid pid s.disk_next s.disk_store h
          hlk
        simp only [deletePage, hlk, BPState.frame, BPState.setFrame]
        rw [if_neg hpcu]
        simpa [hdu, BPState.frame, BPState.setFrame] using haux

/-- Calls that never fetch `INVALID_PAGE_ID`. -/
def opValid : BPOp → Prop
  | BPOp.fetch pid => pid ≠ INVALID_PAGE_ID
  | _ => True

instance (op : BPOp) : Decidable (opValid op) :=
  match op with
  | BPOp.fetch pid => inferInstanceAs (Decidable (pid ≠ INVALID_PAGE_ID))
  | BPOp.unpin _ _ => inferInstanceAs (Decidable True)
  | BPOp.flush _ => inferInstanceAs (Decidable True)
  | BPOp.newpage => inferInstanceAs (Decidable True)
  | BPOp.delete _ => inferInstanceAs (Decidable True)
  | BPOp.flushAll => inferInstanceAs (Decidable True)

/-- Every public call that does not fetch `INVALID_PAGE_ID` preserves the
invariant. -/
theorem good_step (s : BPState) (op : BPOp) (h : GoodState s)
    (hv : opValid op) : GoodState (s.step op) := by
  cases op with
  | fetch pid => exact good_fetch s pid h hv
  | unpin pid d => exact good_unpin s pid d h
  | flush pid => exact good_flush s pid h
  | newpage => exact good_newPage s h
  | delete pid => exact good_delete s pid h
  | flushAll => exact good_flushAll s h

/-- The invariant holds after every valid call sequence. -/
theorem good_run (s : BPState) (ops : List BPOp) (h : GoodState s)
    (hv : ∀ op ∈ ops, opValid op) : GoodState (s.run ops) := by
  induction ops generalizing s with
  | nil => exact h
  | cons op ops ih =>
    exact ih _ (good_step s op h (hv op (List.mem_cons_self _ _)))
      (fun o ho => hv o (List.mem_cons_of_mem _ ho))

/-- C5 (counterexample to the claim as stated): pool_size = 2; Fetch with
page id INVALID_PAGE_ID = -1 binds a frame to the sentinel, and the next
Fetch miss erases that page-table entry while rebinding a different frame,
leaving |free_list| + |page_table| = 1 ≠ 2 = pool_size. -/
theorem size_invariant_fails_on_invalid_fetch :
    (BPState.run (BPState.init 2)
        [BPOp.fetch (-1), BPOp.fetch 5]).free_list.length
      + (BPState.run (BPState.init 2)
          [BPOp.fetch (-1), BPOp.fetch 5]).page_table.length
      ≠ (BPState.run (BPState.init 2)
          [BPOp.fetch (-1), BPOp.fetch 5]).pool_size := by decide

/-- C5 (amended): after every sequence of public calls on a freshly
constructed pool in which Fetch is never called with INVALID_PAGE_ID, the
number of free-list frames plus the number of page-table entries equals
pool_size. -/
theorem free_list_page_table_size_invariant (n : Nat) (ops : List BPOp)
    (hv : ∀ op ∈ ops, opValid op) :
    ((BPState.init n).run ops).free_list.length
      + ((BPState.init n).run ops).page_table.length
      = ((BPState.init n).run ops).pool_size :=
  (good_run _ ops (goodState_init n) hv).size_inv

/-- Witness for C5 at a concrete sequence exercising every operation. -/
theorem free_list_page_table_size_invariant_witness :
    ((BPState.init 2).run
        [BPOp.fetch 5, BPOp.unpin 5 false, BPOp.newpage, BPOp.flush 5,
         BPOp.flushAll, BPOp.delete 5]).free_list.length
      + ((BPState.init 2).run
          [BPOp.fetch 5, BPOp.unpin 5 false, BPOp.newpage, BPOp.flush 5,
           BPOp.flushAll, BPOp.delete 5]).page_table.length
      = ((BPState.init 2).run
          [BPOp.fetch 5, BPOp.unpin 5 false, BPOp.newpage, BPOp.flush 5,
           BPOp.flushAll, BPOp.delete 5]).pool_size :=
  free_list_page_table_size_invariant 2
    [BPOp.fetch 5, BPOp.unpin 5 false, BPOp.newpage, BPOp.flush 5,
     BPOp.flushAll, BPOp.delete 5] (by decide)

/-- C8: on a well-formed (reachable) pool state, whenever NewPage returns
null it has made no AllocatePage call (no page id is leaked) and the whole
pool state — frames, page table, free list, replacer — is unchanged. -/
theorem newPage_null_no_alloc_no_change (s : BPState) (h : GoodState s) :
    (newPage s).1 = none →
      (newPage s).2.1 = s
      ∧ ∀ pid, Event.allocatePage pid ∉ (newPage s).2.2 := by
  intro _
  refine ⟨?_, ?_⟩
  · rw [newPage_good_eq s h]
  · intro pid hmem
    rw [newPage_good_eq s h] at hmem
    simp at hmem

/-- Witness for C8: a freshly constructed pool of size 2. -/
theorem newPage_null_no_alloc_no_change_witness :
    (newPage (BPState.init 2)).2.1 = BPState.init 2
    ∧ ∀ pid, Event.allocatePage pid ∉ (newPage (BPState.init 2)).2.2 :=
  newPage_null_no_alloc_no_change (BPState.init 2) (goodState_init 2)
    (by decide)

/-- Witness for C10: pool of size 1 holding page 5 with pin count 0. -/
theorem over_unpin_marks_frame_dirty_witness :
    (unpinPage exampleUnpinned 5 true).1 = false
    ∧ (unpinPage exampleUnpinned 5 true).2.1
        = exampleUnpinned.setFrame 0
            { exampleUnpinned.frame 0 with is_dirty := true }
    ∧ ((unpinPage exampleUnpinned 5 true).2.1.frame 0).is_dirty = true :=
  over_unpin_marks_frame_dirty exampleUnpinned 5 0 (by decide) (by decide)
    (by decide)

end BusTub
